import Mathlib

/-!
Verification of the trustlens feature-to-score pipeline.

Each definition below is a shallow embedding of a function of the
repository (file and symbol named in its doc comment).  Python floats are
modelled as exact rationals where the computation is field arithmetic and
comparisons, and as real numbers where the computation involves exp/log.
Timestamps are modelled as rational seconds since an epoch.
-/

namespace Trustlens

/-- Association-list lookup returning the first binding of a key. -/
def assocGet {α : Type} : List (String × α) → String → Option α
  | [], _ => none
  | (k, v) :: rest, key => if k = key then some v else assocGet rest key

/-- Lookup with Python dict semantics: a dict built from a list of pairs
keeps the last binding of a duplicated key, so we search the reversed
list. -/
def dictGet {α : Type} (rows : List (String × α)) (key : String) : Option α :=
  assocGet rows.reverse key

theorem assocGet_cons {α : Type} (k : String) (v : α) (rest : List (String × α)) (key : String) :
    assocGet ((k, v) :: rest) key = if k = key then some v else assocGet rest key := rfl

theorem dictGet_append_single {α : Type} (rows : List (String × α)) (k : String) (v : α) :
    dictGet (rows ++ [(k, v)]) k = some v := by
  simp [dictGet, assocGet]

theorem dictGet_append_single_ne {α : Type} (rows : List (String × α)) (k : String) (v : α)
    (key : String) (h : k ≠ key) : dictGet (rows ++ [(k, v)]) key = dictGet rows key := by
  simp [dictGet, assocGet, h]

namespace Scoring

/-- Neutral default feature values, from the DEFAULTS dict in
services/scoring.py. -/
def DEFAULTS : List (String × ℚ) :=
  [("weighted_prior_mean", 0.5),
   ("domain_diversity", 0.0),
   ("recency_score", 0.5),
   ("unique_domains", 0.0),
   ("max_domain_concentration", 0.0),
   ("missing_timestamp_ratio", 0.0),
   ("unknown_source_ratio", 0.0),
   ("total_articles", 0.0)]

/-- Value of a named feature after the Python merge of the observed
feature dict over DEFAULTS, as in BaselineScorer raw score computation. -/
def mergedValue (features : List (String × ℚ)) (name : String) : ℚ :=
  ((dictGet features name).orElse (fun _ => dictGet DEFAULTS name)).getD 0

/-- Compression helper of BaselineScorer: math.log1p applied to
max(0.0, value). -/
noncomputable def log1p (x : ℝ) : ℝ := Real.log (1 + max 0 x)

/-- Logistic sigmoid, the expression 1.0 / (1.0 + math.exp(-x)). -/
noncomputable def sigmoid (x : ℝ) : ℝ := 1 / (1 + Real.exp (-x))

/-- Clamp to the unit interval, the expression min(max(x, 0.0), 1.0). -/
noncomputable def clamp01 (x : ℝ) : ℝ := min (max x 0) 1

/-- Weighted sum of the eight baseline features, from
BaselineScorer raw score contributions. -/
noncomputable def weightedSum (features : List (String × ℚ)) : ℝ :=
  2.0 * ((mergedValue features "weighted_prior_mean" : ℚ) : ℝ)
  + 1.0 * ((mergedValue features "domain_diversity" : ℚ) : ℝ)
  + 0.75 * ((mergedValue features "recency_score" : ℚ) : ℝ)
  + 0.25 * log1p ((mergedValue features "unique_domains" : ℚ) : ℝ)
  + (-1.5) * ((mergedValue features "max_domain_concentration" : ℚ) : ℝ)
  + (-0.5) * ((mergedValue features "missing_timestamp_ratio" : ℚ) : ℝ)
  + (-1.0) * ((mergedValue features "unknown_source_ratio" : ℚ) : ℝ)
  + 0.1 * log1p ((mergedValue features "total_articles" : ℚ) : ℝ)

/-- Raw probability of BaselineScorer: sigmoid of the weighted sum,
clamped to the unit interval. -/
noncomputable def rawScore (features : List (String × ℚ)) : ℝ :=
  clamp01 (sigmoid (weightedSum features))

/-- Fixed affine recalibration of BaselineScorer:
clamp(0.05 + 0.90 * raw_prob, 0, 1). -/
noncomputable def calibrate (rawProb : ℝ) : ℝ := clamp01 (0.05 + 0.90 * rawProb)

/-- Calibrated baseline score of a feature dict (BaselineScorer.score_run
without the persistence plumbing). -/
noncomputable def baselineScore (features : List (String × ℚ)) : ℝ :=
  calibrate (rawScore features)

/-- Three-way label of BaselineScorer from the calibrated score. -/
def label (score : ℚ) : String :=
  if score ≥ 0.67 then "credible"
  else if score ≥ 0.33 then "uncertain"
  else "not_credible"

theorem sigmoid_pos (x : ℝ) : 0 < sigmoid x := by
  unfold sigmoid
  positivity

theorem sigmoid_lt_one (x : ℝ) : sigmoid x < 1 := by
  unfold sigmoid
  rw [div_lt_one (by positivity)]
  linarith [Real.exp_pos (-x)]

theorem sigmoid_strictMono {x y : ℝ} (h : x < y) : sigmoid x < sigmoid y := by
  unfold sigmoid
  have hexp : Real.exp (-y) < Real.exp (-x) := Real.exp_lt_exp.mpr (by linarith)
  have hy : (0 : ℝ) < 1 + Real.exp (-y) := by positivity
  exact one_div_lt_one_div_of_lt hy (by linarith)

theorem clamp01_eq_self {x : ℝ} (h0 : 0 ≤ x) (h1 : x ≤ 1) : clamp01 x = x := by
  unfold clamp01
  rw [max_eq_left h0, min_eq_left h1]

end Scoring

/-- C6: the baseline labeling function maps a calibrated score s to
"credible" iff s ≥ 0.67, to "uncertain" iff 0.33 ≤ s < 0.67, and to
"not_credible" iff s < 0.33; boundary values 0.67 and 0.33 belong to the
upper bucket. -/
theorem baseline_label_boundaries :
    (∀ s : ℚ, Scoring.label s = "credible" ↔ 0.67 ≤ s) ∧
    (∀ s : ℚ, Scoring.label s = "uncertain" ↔ 0.33 ≤ s ∧ s < 0.67) ∧
    (∀ s : ℚ, Scoring.label s = "not_credible" ↔ s < 0.33) ∧
    Scoring.label 0.67 = "credible" ∧ Scoring.label 0.33 = "uncertain" := by
  refine ⟨?_, ?_, ?_, by norm_num [Scoring.label], by norm_num [Scoring.label]⟩ <;>
    intro s <;> unfold Scoring.label <;> split_ifs with h₁ h₂ <;>
    simp_all <;> linarith

theorem mergedValue_override (fs : List (String × ℚ)) (v : ℚ) :
    Scoring.mergedValue (fs ++ [("weighted_prior_mean", v)]) "weighted_prior_mean" = v := by
  simp [Scoring.mergedValue, dictGet_append_single]

theorem mergedValue_override_ne (fs : List (String × ℚ)) (v : ℚ) (name : String)
    (h : "weighted_prior_mean" ≠ name) :
    Scoring.mergedValue (fs ++ [("weighted_prior_mean", v)]) name =
      Scoring.mergedValue fs name := by
  simp [Scoring.mergedValue, dictGet_append_single_ne _ _ _ _ h]

theorem weightedSum_override (fs : List (String × ℚ)) (v : ℚ) :
    Scoring.weightedSum (fs ++ [("weighted_prior_mean", v)]) =
      Scoring.weightedSum fs
        + 2 * ((v : ℝ) - ((Scoring.mergedValue fs "weighted_prior_mean" : ℚ) : ℝ)) := by
  unfold Scoring.weightedSum
  rw [mergedValue_override,
    mergedValue_override_ne _ _ _ (by decide),
    mergedValue_override_ne _ _ _ (by decide),
    mergedValue_override_ne _ _ _ (by decide),
    mergedValue_override_ne _ _ _ (by decide),
    mergedValue_override_ne _ _ _ (by decide),
    mergedValue_override_ne _ _ _ (by decide),
    mergedValue_override_ne _ _ _ (by decide)]
  ring

theorem calibrate_interior {p : ℝ} (h0 : 0 < p) (h1 : p < 1) :
    Scoring.calibrate p = 0.05 + 0.90 * p := by
  unfold Scoring.calibrate
  exact Scoring.clamp01_eq_self (by linarith) (by linarith)

theorem rawScore_eq_sigmoid (fs : List (String × ℚ)) :
    Scoring.rawScore fs = Scoring.sigmoid (Scoring.weightedSum fs) := by
  unfold Scoring.rawScore
  exact Scoring.clamp01_eq_self (le_of_lt (Scoring.sigmoid_pos _))
    (le_of_lt (Scoring.sigmoid_lt_one _))

/-- C7: the baseline score is strictly monotone in weighted_prior_mean:
for any fixed values of the other stored features, overriding
weighted_prior_mean with 0.9 yields a strictly larger calibrated baseline
score than overriding it with 0.2 (the sigmoid is strictly increasing,
the affine recalibration has positive slope 0.90, and the unit clamp
never binds on sigmoid outputs). -/
theorem baseline_monotone_weighted_prior (fs : List (String × ℚ)) :
    Scoring.baselineScore (fs ++ [("weighted_prior_mean", 0.2)]) <
      Scoring.baselineScore (fs ++ [("weighted_prior_mean", 0.9)]) := by
  have hsum : Scoring.weightedSum (fs ++ [("weighted_prior_mean", 0.2)]) <
      Scoring.weightedSum (fs ++ [("weighted_prior_mean", 0.9)]) := by
    rw [weightedSum_override, weightedSum_override]
    have : ((0.2 : ℚ) : ℝ) < ((0.9 : ℚ) : ℝ) := by norm_num
    linarith
  have hsig := Scoring.sigmoid_strictMono hsum
  unfold Scoring.baselineScore
  rw [rawScore_eq_sigmoid, rawScore_eq_sigmoid,
    calibrate_interior (Scoring.sigmoid_pos _) (Scoring.sigmoid_lt_one _),
    calibrate_interior (Scoring.sigmoid_pos _) (Scoring.sigmoid_lt_one _)]
  linarith

namespace TrainedScoring

/-- Persisted model artifact as read by TrainedModelScorer.score_run:
the ordered feature-name list, the weight map (weights_json, including
the intercept entry), optional Platt calibration parameters (a, b), and
the decision thresholds (t_lo, t_hi). -/
structure Artifact where
  featureNames : List String
  weights : List (String × ℚ)
  calibration : Option (ℚ × ℚ)
  thresholds : ℚ × ℚ

/-- Intercept read from the weight map with default 0.0. -/
def interceptOf (m : Artifact) : ℚ := (dictGet m.weights "intercept").getD 0

/-- Feature values in the order of the artifact's feature names,
with 0.0 substituted for names absent from the run's stored features. -/
def valuesOf (features : List (String × ℚ)) (m : Artifact) : List ℚ :=
  m.featureNames.map (fun n => (dictGet features n).getD 0)

/-- Weights in the order of the artifact's feature names, default 0.0. -/
def weightsOf (m : Artifact) : List ℚ :=
  m.featureNames.map (fun n => (dictGet m.weights n).getD 0)

/-- Linear logit: intercept + sum of weight times value over the zip. -/
def logitOf (m : Artifact) (features : List (String × ℚ)) : ℚ :=
  interceptOf m + (((weightsOf m).zip (valuesOf features m)).map (fun wv => wv.1 * wv.2)).sum

/-- Overflow-guarded logit: max(min(logit, 50), -50), exactly the
expression inside math.exp in TrainedModelScorer.score_run. -/
def clampedLogit (m : Artifact) (features : List (String × ℚ)) : ℚ :=
  max (min (logitOf m features) 50) (-50)

/-- Raw probability of the trained scorer: sigmoid of the clamped logit. -/
noncomputable def rawProb (m : Artifact) (features : List (String × ℚ)) : ℝ :=
  Scoring.sigmoid ((clampedLogit m features : ℚ) : ℝ)

/-- Platt recalibration as the code computes it: the probability is
clamped into [1e-6, 1 - 1e-6], its logit is taken, and the sigmoid is
applied to a * logit_p + b with NO clamp on that argument. -/
noncomputable def plattApply (a b : ℚ) (p : ℝ) : ℝ :=
  let eps : ℝ := 1e-6
  let q := min (max p eps) (1 - eps)
  Scoring.sigmoid ((a : ℝ) * Real.log (q / (1 - q)) + (b : ℝ))

/-- Modelled from the spec: the recalibration described by the spec
sentence "same clamp-guarded sigmoid", which would clamp a * logit_p + b
to [-50, 50] before the sigmoid.  Kept separate from plattApply for the
refinement comparison; the code does not perform this clamp. -/
noncomputable def plattSpecClamped (a b : ℚ) (p : ℝ) : ℝ :=
  let eps : ℝ := 1e-6
  let q := min (max p eps) (1 - eps)
  Scoring.sigmoid (max (min ((a : ℝ) * Real.log (q / (1 - q)) + (b : ℝ)) 50) (-50))

/-- Calibrated score of TrainedModelScorer.score_run: the raw probability
when no calibration is stored, else its Platt recalibration. -/
noncomputable def calibratedScore (m : Artifact) (features : List (String × ℚ)) : ℝ :=
  match m.calibration with
  | none => rawProb m features
  | some (a, b) => plattApply a b (rawProb m features)

/-- Calibrated score under the spec's clamp-guarded reading of the Platt
recalibration. -/
noncomputable def specCalibratedScore (m : Artifact) (features : List (String × ℚ)) : ℝ :=
  match m.calibration with
  | none => rawProb m features
  | some (a, b) => plattSpecClamped a b (rawProb m features)

/-- Three-way label from the artifact's stored thresholds. -/
noncomputable def trainedLabel (m : Artifact) (features : List (String × ℚ)) : String :=
  let c := calibratedScore m features
  if ((m.thresholds.2 : ℚ) : ℝ) ≤ c then "credible"
  else if c ≤ ((m.thresholds.1 : ℚ) : ℝ) then "not_credible"
  else "uncertain"

/-- Artifact with no features, zero intercept and stored Platt parameters
a = 1, b = -100, used to separate the code's recalibration from the
clamp-guarded one. -/
def exArtifact : Artifact :=
  { featureNames := []
    weights := [("intercept", 0)]
    calibration := some (1, -100)
    thresholds := (0.33, 0.67) }

theorem sigmoid_mem_unit (x : ℝ) : 0 ≤ Scoring.sigmoid x ∧ Scoring.sigmoid x ≤ 1 :=
  ⟨le_of_lt (Scoring.sigmoid_pos x), le_of_lt (Scoring.sigmoid_lt_one x)⟩

end TrainedScoring

/-- C3 counterexample: at the artifact with no features, zero intercept
and stored Platt parameters (a, b) = (1, -100), the code's recalibrated
score differs from the one computed with the clamp-guarded sigmoid the
claim describes, so the recalibration sigmoid does not use the [-50, 50]
clamp guard. -/
theorem platt_recalibration_not_clamp_guarded :
    TrainedScoring.calibratedScore TrainedScoring.exArtifact [] ≠
      TrainedScoring.specCalibratedScore TrainedScoring.exArtifact [] := by
  have hlogit : TrainedScoring.clampedLogit TrainedScoring.exArtifact [] = 0 := by
    norm_num [TrainedScoring.clampedLogit, TrainedScoring.logitOf,
      TrainedScoring.interceptOf, TrainedScoring.weightsOf, TrainedScoring.valuesOf,
      TrainedScoring.exArtifact, dictGet, assocGet]
  have hraw : TrainedScoring.rawProb TrainedScoring.exArtifact [] = 1 / 2 := by
    rw [TrainedScoring.rawProb, hlogit]
    norm_num [Scoring.sigmoid, Real.exp_zero]
  have hq : min (max ((1 : ℝ) / 2) 1e-6) (1 - 1e-6) = 1 / 2 := by
    rw [max_eq_left (by norm_num), min_eq_left (by norm_num)]
  have hlog : Real.log (((1 : ℝ) / 2) / (1 - 1 / 2)) = 0 := by
    norm_num [Real.log_one]
  have hcode : TrainedScoring.calibratedScore TrainedScoring.exArtifact [] =
      Scoring.sigmoid (-100) := by
    rw [show TrainedScoring.calibratedScore TrainedScoring.exArtifact [] =
        TrainedScoring.plattApply 1 (-100) (TrainedScoring.rawProb TrainedScoring.exArtifact [])
      from rfl, hraw, TrainedScoring.plattApply]
    rw [hq, hlog]
    norm_num
  have hspec : TrainedScoring.specCalibratedScore TrainedScoring.exArtifact [] =
      Scoring.sigmoid (-50) := by
    rw [show TrainedScoring.specCalibratedScore TrainedScoring.exArtifact [] =
        TrainedScoring.plattSpecClamped 1 (-100)
          (TrainedScoring.rawProb TrainedScoring.exArtifact []) from rfl,
      hraw, TrainedScoring.plattSpecClamped]
    rw [hq, hlog]
    norm_num
  rw [hcode, hspec]
  exact ne_of_lt (Scoring.sigmoid_strictMono (by norm_num))

/-- C3 (amended): in trained-model scoring the logit is clamped to
[-50, 50] before the first sigmoid, and for all artifact parameters and
feature values the final (possibly Platt-recalibrated) score lies in
[0, 1]; the Platt recalibration, however, clamps the raw probability into
[1e-6, 1 - 1e-6] before taking its logit and applies no clamp to
a * logit_p + b. -/
theorem trained_score_clamped_and_bounded (m : TrainedScoring.Artifact)
    (features : List (String × ℚ)) :
    -50 ≤ TrainedScoring.clampedLogit m features ∧
    TrainedScoring.clampedLogit m features ≤ 50 ∧
    0 ≤ TrainedScoring.calibratedScore m features ∧
    TrainedScoring.calibratedScore m features ≤ 1 := by
  refine ⟨le_max_right _ _, max_le (min_le_right _ _) (by norm_num), ?_, ?_⟩ <;>
  · rcases h : m.calibration with _ | ⟨a, b⟩ <;>
      simp [TrainedScoring.calibratedScore, h, TrainedScoring.plattApply,
        TrainedScoring.rawProb] <;>
      first
      | exact (TrainedScoring.sigmoid_mem_unit _).1
      | exact (TrainedScoring.sigmoid_mem_unit _).2

namespace ModelTraining

/-- Strip of ASCII whitespace from both ends, modelling str.strip(). -/
def pyStrip (s : String) : String :=
  let cs := s.toList.dropWhile Char.isWhitespace
  String.mk (cs.reverse.dropWhile Char.isWhitespace).reverse

/-- Lowercasing of every character, modelling str.lower() on ASCII. -/
def pyLower (s : String) : String := String.mk (s.toList.map Char.toLower)

/-- Numeric value of an ASCII digit character. -/
def digitVal (c : Char) : ℕ := c.toNat - 48

/-- Digit-run scanner for the int() literal grammar: digits with single
underscores allowed between digits. -/
def parseDigitsGo : ℕ → List Char → Option ℕ
  | acc, [] => some acc
  | acc, '_' :: d :: rest =>
      if d.isDigit then parseDigitsGo (10 * acc + digitVal d) rest else none
  | _, ['_'] => none
  | acc, c :: rest =>
      if c.isDigit then parseDigitsGo (10 * acc + digitVal c) rest else none

/-- Unsigned decimal literal: at least one digit, underscores between
digits. -/
def parseUnsigned (cs : List Char) : Option ℕ :=
  match cs with
  | [] => none
  | c :: rest => if c.isDigit then parseDigitsGo (digitVal c) rest else none

/-- Decimal integer parser modelling the Python int() builtin on an
already-stripped ASCII string: optional sign, then an unsigned decimal
literal; None models the ValueError branch. -/
def pyParseInt (s : String) : Option ℤ :=
  match s.toList with
  | '+' :: rest => (parseUnsigned rest).map Int.ofNat
  | '-' :: rest => (parseUnsigned rest).map (fun n => -(n : ℤ))
  | cs => (parseUnsigned cs).map Int.ofNat

/-- Normalized label text: raw.strip().lower() from _label_to_int. -/
def normalizeLabel (raw : String) : String := pyLower (pyStrip raw)

/-- Embedding of _label_to_int in services/model_training.py. -/
def labelToInt (raw : String) : Option ℤ :=
  let v := normalizeLabel raw
  if v = "1" ∨ v = "credible" then some 1
  else if v = "0" ∨ v = "not_credible" then some 0
  else if v = "uncertain" then none
  else pyParseInt v

/-- Predictions of the threshold search for one candidate pair: the
np.where expression mapping probabilities at or above t_hi to 1 and
everything else — at or below t_lo as well as strictly between — to 0. -/
def predsAt (tLo tHi : ℚ) (probs : List ℚ) : List ℤ :=
  probs.map (fun p => if p ≥ tHi then 1 else if p ≤ tLo then 0 else 0)

/-- F1 objective of the inner loop of ModelTrainer.tune_thresholds, with
the same safe divisions as the code. -/
def f1At (probs yVal : List ℚ) (tLo tHi : ℚ) : ℚ :=
  let pairs := (predsAt tLo tHi probs).zip yVal
  let tp := (pairs.filter (fun t => t.1 == 1 && t.2 == 1)).length
  let fp := (pairs.filter (fun t => t.1 == 1 && t.2 == 0)).length
  let fnc := (pairs.filter (fun t => t.1 == 0 && t.2 == 1)).length
  let precision := if tp + fp ≠ 0 then (tp : ℚ) / ((tp : ℚ) + (fp : ℚ)) else 0
  let rcl := if tp + fnc ≠ 0 then (tp : ℚ) / ((tp : ℚ) + (fnc : ℚ)) else 0
  if precision + rcl ≠ 0 then 2 * precision * rcl / (precision + rcl) else 0

/-- Candidate thresholds: sorted(set(probs_val)), the distinct observed
validation probabilities in ascending order. -/
def candidatesOf (probs : List ℚ) : List ℚ := List.insertionSort (· ≤ ·) probs.dedup

theorem candidatesOf_sorted_lt (probs : List ℚ) :
    List.Sorted (· < ·) (candidatesOf probs) :=
  List.Sorted.lt_of_le (List.sorted_insertionSort _ _)
    (((List.perm_insertionSort _ _).nodup_iff).mpr probs.nodup_dedup)

/-- Ordered pairs visited by the nested loop, in iteration order: for
each candidate t_lo, every later candidate as t_hi. -/
def allPairs : List ℚ → List (ℚ × ℚ)
  | [] => []
  | x :: xs => xs.map (fun y => (x, y)) ++ allPairs xs

/-- One step of the best-pair tracking: replace the accumulator exactly
when the pair's F1 strictly exceeds the best F1 so far. -/
def tuneStep (probs yVal : List ℚ) (acc : ℚ × (ℚ × ℚ)) (pr : ℚ × ℚ) : ℚ × (ℚ × ℚ) :=
  if acc.1 < f1At probs yVal pr.1 pr.2 then (f1At probs yVal pr.1 pr.2, pr) else acc

/-- Fold of the best-pair tracking over a pair list. -/
def tuneFold (probs yVal : List ℚ) (acc : ℚ × (ℚ × ℚ)) (pairs : List (ℚ × ℚ)) : ℚ × (ℚ × ℚ) :=
  pairs.foldl (tuneStep probs yVal) acc

/-- Embedding of ModelTrainer.tune_thresholds: exhaustive search over
ordered candidate pairs starting from best_f1 = -1 and default pair
(0.33, 0.67), with the final defensive reset when t_lo is not below
t_hi. -/
def tuneThresholds (probsVal yVal : List ℚ) : ℚ × ℚ :=
  if probsVal = [] then (0.33, 0.67)
  else
    let best := tuneFold probsVal yVal (-1, (0.33, 0.67)) (allPairs (candidatesOf probsVal))
    if best.2.1 ≥ best.2.2 then (0.33, 0.67) else best.2

theorem f1At_nonneg (probs yVal : List ℚ) (tLo tHi : ℚ) : 0 ≤ f1At probs yVal tLo tHi := by
  unfold f1At
  dsimp only
  split_ifs <;> positivity

theorem predsAt_tlo_irrelevant (tLo tLo' tHi : ℚ) (probs : List ℚ) :
    predsAt tLo tHi probs = predsAt tLo' tHi probs := by
  simp only [predsAt, ite_self]

theorem f1At_tlo_irrelevant (probs yVal : List ℚ) (tLo tLo' tHi : ℚ) :
    f1At probs yVal tLo tHi = f1At probs yVal tLo' tHi := by
  unfold f1At
  rw [predsAt_tlo_irrelevant tLo tLo' tHi]

theorem tuneFold_sound (probs yVal : List ℚ) (pairs : List (ℚ × ℚ)) :
    ∀ acc : ℚ × (ℚ × ℚ),
      tuneFold probs yVal acc pairs = acc ∨
        ((tuneFold probs yVal acc pairs).2 ∈ pairs ∧
          (tuneFold probs yVal acc pairs).1 =
            f1At probs yVal (tuneFold probs yVal acc pairs).2.1
              (tuneFold probs yVal acc pairs).2.2) := by
  induction pairs with
  | nil => exact fun acc => Or.inl rfl
  | cons pr rest ih =>
    intro acc
    have hcons : tuneFold probs yVal acc (pr :: rest) =
        tuneFold probs yVal (tuneStep probs yVal acc pr) rest := rfl
    rcases ih (tuneStep probs yVal acc pr) with h | h
    · rw [hcons, h]
      unfold tuneStep
      split_ifs
      · exact Or.inr ⟨List.mem_cons_self _ _, rfl⟩
      · exact Or.inl rfl
    · rw [hcons]
      exact Or.inr ⟨List.mem_cons_of_mem _ h.1, h.2⟩

theorem tuneFold_ge (probs yVal : List ℚ) (pairs : List (ℚ × ℚ)) :
    ∀ acc : ℚ × (ℚ × ℚ),
      acc.1 ≤ (tuneFold probs yVal acc pairs).1 ∧
      ∀ pr ∈ pairs, f1At probs yVal pr.1 pr.2 ≤ (tuneFold probs yVal acc pairs).1 := by
  induction pairs with
  | nil => exact fun acc => ⟨le_refl _, by simp⟩
  | cons pr rest ih =>
    intro acc
    have hstep : acc.1 ≤ (tuneStep probs yVal acc pr).1 ∧
        f1At probs yVal pr.1 pr.2 ≤ (tuneStep probs yVal acc pr).1 := by
      unfold tuneStep
      split_ifs with h
      · exact ⟨le_of_lt h, le_refl _⟩
      · exact ⟨le_refl _, le_of_not_lt h⟩
    obtain ⟨h1, h2⟩ := ih (tuneStep probs yVal acc pr)
    refine ⟨le_trans hstep.1 h1, ?_⟩
    intro q hq
    rcases List.mem_cons.mp hq with rfl | hq'
    · exact le_trans hstep.2 h1
    · exact h2 q hq'

theorem tuneFold_no_update (probs yVal : List ℚ) (pairs : List (ℚ × ℚ)) :
    ∀ acc : ℚ × (ℚ × ℚ), (∀ pr ∈ pairs, f1At probs yVal pr.1 pr.2 ≤ acc.1) →
      tuneFold probs yVal acc pairs = acc := by
  induction pairs with
  | nil => exact fun acc _ => rfl
  | cons pr rest ih =>
    intro acc h
    have hstep : tuneStep probs yVal acc pr = acc := by
      unfold tuneStep
      rw [if_neg (not_lt.mpr (h pr (List.mem_cons_self _ _)))]
    have hcons : tuneFold probs yVal acc (pr :: rest) =
        tuneFold probs yVal (tuneStep probs yVal acc pr) rest := rfl
    rw [hcons, hstep]
    exact ih acc (fun q hq => h q (List.mem_cons_of_mem _ hq))

theorem allPairs_ne_nil {l : List ℚ} (h : 2 ≤ l.length) : allPairs l ≠ [] := by
  match l, h with
  | x :: y :: rest, _ => simp [allPairs]

theorem mem_allPairs {l : List ℚ} {pr : ℚ × ℚ} (h : pr ∈ allPairs l) :
    pr.1 ∈ l ∧ pr.2 ∈ l := by
  induction l with
  | nil => cases h
  | cons x xs ih =>
    simp only [allPairs, List.mem_append, List.mem_map] at h
    rcases h with ⟨y, hy, rfl⟩ | h
    · exact ⟨List.mem_cons_self _ _, List.mem_cons_of_mem _ hy⟩
    · obtain ⟨h1, h2⟩ := ih h
      exact ⟨List.mem_cons_of_mem _ h1, List.mem_cons_of_mem _ h2⟩

theorem allPairs_lt {l : List ℚ} (hs : List.Sorted (· < ·) l) {pr : ℚ × ℚ}
    (h : pr ∈ allPairs l) : pr.1 < pr.2 := by
  induction l with
  | nil => cases h
  | cons x xs ih =>
    simp only [allPairs, List.mem_append, List.mem_map] at h
    rcases h with ⟨y, hy, rfl⟩ | h
    · exact List.rel_of_sorted_cons hs y hy
    · exact ih hs.of_cons h

theorem tuneFold_optimal (probs yVal : List ℚ) {pairs : List (ℚ × ℚ)} (hne : pairs ≠ []) :
    (tuneFold probs yVal (-1, (0.33, 0.67)) pairs).2 ∈ pairs ∧
    (tuneFold probs yVal (-1, (0.33, 0.67)) pairs).1 =
      f1At probs yVal (tuneFold probs yVal (-1, (0.33, 0.67)) pairs).2.1
        (tuneFold probs yVal (-1, (0.33, 0.67)) pairs).2.2 ∧
    ∀ pr ∈ pairs, f1At probs yVal pr.1 pr.2 ≤
      (tuneFold probs yVal (-1, (0.33, 0.67)) pairs).1 := by
  obtain ⟨-, hge2⟩ := tuneFold_ge probs yVal pairs (-1, (0.33, 0.67))
  rcases tuneFold_sound probs yVal pairs (-1, (0.33, 0.67)) with h | h
  · exfalso
    obtain ⟨pr, hpr⟩ := List.exists_mem_of_ne_nil pairs hne
    have hle := hge2 pr hpr
    rw [h] at hle
    have hnn := f1At_nonneg probs yVal pr.1 pr.2
    simp only at hle
    linarith
  · exact ⟨h.1, h.2, hge2⟩

theorem candidatesOf_ne_nil_of_two_le {probs : List ℚ}
    (hlen : 2 ≤ (candidatesOf probs).length) : probs ≠ [] := by
  intro h
  subst h
  simp [candidatesOf] at hlen

theorem tuneThresholds_eq_best (probs yVal : List ℚ) (hprobs : probs ≠ [])
    (hlt : (tuneFold probs yVal (-1, (0.33, 0.67)) (allPairs (candidatesOf probs))).2.1 <
      (tuneFold probs yVal (-1, (0.33, 0.67)) (allPairs (candidatesOf probs))).2.2) :
    tuneThresholds probs yVal =
      (tuneFold probs yVal (-1, (0.33, 0.67)) (allPairs (candidatesOf probs))).2 := by
  unfold tuneThresholds
  rw [if_neg hprobs]
  dsimp only
  rw [if_neg (not_le.mpr hlt)]

/-- Parsed dataset row of ModelTrainer.load_dataset. -/
structure DatasetRow where
  runId : String
  label : ℤ
  deriving DecidableEq

/-- Embedding of ModelTrainer.load_dataset over already-read CSV rows of
(run_id, label) strings: the run id is stripped and rows whose label does
not parse are skipped. -/
def loadDataset (rows : List (String × String)) : List DatasetRow :=
  rows.filterMap fun rl => (labelToInt rl.2).map (fun l => ⟨pyStrip rl.1, l⟩)

end ModelTraining

/-- C4 counterexample: the label "2" is not one of "1", "credible", "0",
"not_credible", yet the loader keeps the row with label 2 instead of
dropping it, because _label_to_int falls through to the int() builtin. -/
theorem numeric_label_not_dropped :
    ModelTraining.labelToInt "2" = some 2 ∧
    ModelTraining.loadDataset [("r1", "2")] = [{ runId := "r1", label := 2 }] ∧
    ModelTraining.normalizeLabel "2" ∉ (["1", "credible", "0", "not_credible"] : List String) := by
  refine ⟨by decide, by decide, by decide⟩

/-- C4 (amended): a training CSV row is kept iff its trimmed, lowercased
label is "credible" or "not_credible" or parses as a decimal integer
literal (so "1" maps to 1, "0" to 0, and any other integer string such as
"2" is kept with that integer value); "uncertain" and unparseable strings
are silently dropped at load time with no error. -/
theorem label_row_kept_iff :
    (∀ raw : String,
      ((ModelTraining.labelToInt raw).isSome = true ↔
        (ModelTraining.normalizeLabel raw ≠ "uncertain" ∧
          (ModelTraining.normalizeLabel raw = "credible" ∨
           ModelTraining.normalizeLabel raw = "not_credible" ∨
           (ModelTraining.pyParseInt (ModelTraining.normalizeLabel raw)).isSome = true)))) ∧
    (∀ raw : String,
      ModelTraining.normalizeLabel raw = "1" ∨ ModelTraining.normalizeLabel raw = "credible" →
        ModelTraining.labelToInt raw = some 1) ∧
    (∀ raw : String,
      ModelTraining.normalizeLabel raw = "0" ∨ ModelTraining.normalizeLabel raw = "not_credible" →
        ModelTraining.labelToInt raw = some 0) ∧
    (∀ rid lab : String, ∀ rest : List (String × String),
      ModelTraining.loadDataset ((rid, lab) :: rest) =
        match ModelTraining.labelToInt lab with
        | some l => { runId := ModelTraining.pyStrip rid, label := l } :: ModelTraining.loadDataset rest
        | none => ModelTraining.loadDataset rest) := by
  refine ⟨?_, ?_, ?_, ?_⟩
  · intro raw
    unfold ModelTraining.labelToInt
    dsimp only
    split_ifs with h1 h2 h3 <;> simp_all
    · rcases h1 with h | h <;> rw [h] <;> decide
    · rcases h2 with h | h <;> rw [h] <;> decide
  · intro raw h
    unfold ModelTraining.labelToInt
    rcases h with h | h <;> simp [h]
  · intro raw h
    unfold ModelTraining.labelToInt
    rcases h with h | h <;> rw [h] <;> decide
  · intro rid lab rest
    unfold ModelTraining.loadDataset
    rcases h : ModelTraining.labelToInt lab with _ | l <;> simp [h]

/-- C4 witness: the keep rules applied at concrete labels. -/
theorem label_row_kept_iff_witness :
    ModelTraining.labelToInt " Credible " = some 1 ∧
    ModelTraining.labelToInt "NOT_CREDIBLE" = some 0 := by
  exact ⟨label_row_kept_iff.2.1 " Credible " (Or.inr (by decide)),
    label_row_kept_iff.2.2.1 "NOT_CREDIBLE" (Or.inr (by decide))⟩

/-- C5: on an empty validation set threshold tuning returns the default
pair (0.33, 0.67); otherwise, whenever at least two distinct probability
values were observed, it returns an ordered pair (t_lo, t_hi) of observed
values maximizing the F1 of the rule that only predictions at or above
t_hi count positive. -/
theorem tune_thresholds_optimal :
    (∀ yVal : List ℚ, ModelTraining.tuneThresholds [] yVal = (0.33, 0.67)) ∧
    (∀ probs yVal : List ℚ, 2 ≤ (ModelTraining.candidatesOf probs).length →
      ModelTraining.tuneThresholds probs yVal ∈
        ModelTraining.allPairs (ModelTraining.candidatesOf probs) ∧
      ∀ pr ∈ ModelTraining.allPairs (ModelTraining.candidatesOf probs),
        ModelTraining.f1At probs yVal pr.1 pr.2 ≤
          ModelTraining.f1At probs yVal (ModelTraining.tuneThresholds probs yVal).1
            (ModelTraining.tuneThresholds probs yVal).2) := by
  constructor
  · intro yVal
    rfl
  · intro probs yVal hlen
    have hprobs := ModelTraining.candidatesOf_ne_nil_of_two_le hlen
    have hne := ModelTraining.allPairs_ne_nil hlen
    obtain ⟨hmem, hval, hmax⟩ := ModelTraining.tuneFold_optimal probs yVal hne
    have hlt := ModelTraining.allPairs_lt (ModelTraining.candidatesOf_sorted_lt probs) hmem
    have hres := ModelTraining.tuneThresholds_eq_best probs yVal hprobs hlt
    rw [hres]
    refine ⟨hmem, fun pr hpr => ?_⟩
    rw [← hval]
    exact hmax pr hpr

/-- C5 witness: tuning applied to an empty validation set and to the
two-point set of probabilities 0 and 1 with labels 0 and 1. -/
theorem tune_thresholds_optimal_witness :
    ModelTraining.tuneThresholds [] [] = (0.33, 0.67) ∧
    ModelTraining.tuneThresholds [0, 1] [0, 1] ∈
      ModelTraining.allPairs (ModelTraining.candidatesOf [0, 1]) :=
  ⟨tune_thresholds_optimal.1 [],
    (tune_thresholds_optimal.2 [0, 1] [0, 1] (by decide)).1⟩

/-- C10: inside threshold tuning the candidate predictions, and hence the
F1 objective, do not depend on t_lo at all — predictions at or below t_lo
and predictions strictly between the thresholds are both mapped to 0 —
so the maximized F1 is a function of t_hi alone, and the t_lo the search
returns is just the first candidate in iteration order, the smallest
observed probability value. -/
theorem tune_f1_independent_of_tlo :
    (∀ (tLo tLo' tHi : ℚ) (probs : List ℚ),
      ModelTraining.predsAt tLo tHi probs = ModelTraining.predsAt tLo' tHi probs) ∧
    (∀ (probs yVal : List ℚ) (tLo tLo' tHi : ℚ),
      ModelTraining.f1At probs yVal tLo tHi = ModelTraining.f1At probs yVal tLo' tHi) ∧
    (∀ probs yVal : List ℚ, 2 ≤ (ModelTraining.candidatesOf probs).length →
      (ModelTraining.tuneThresholds probs yVal).1 =
        (ModelTraining.candidatesOf probs).headI) := by
  refine ⟨ModelTraining.predsAt_tlo_irrelevant, ModelTraining.f1At_tlo_irrelevant, ?_⟩
  intro probs yVal hlen
  have hprobs := ModelTraining.candidatesOf_ne_nil_of_two_le hlen
  rcases hc : ModelTraining.candidatesOf probs with _ | ⟨c0, rest⟩
  · rw [hc] at hlen
    simp at hlen
  have hrest : rest ≠ [] := by
    rw [hc] at hlen
    simp only [List.length_cons] at hlen
    intro h
    subst h
    simp at hlen
  have hblock_ne : rest.map (fun y => (c0, y)) ≠ [] := by
    simpa using hrest
  obtain ⟨hmem1, hval1, hmax1⟩ := ModelTraining.tuneFold_optimal probs yVal hblock_ne
  have hdom : ∀ pr ∈ ModelTraining.allPairs rest,
      ModelTraining.f1At probs yVal pr.1 pr.2 ≤
        (ModelTraining.tuneFold probs yVal (-1, (0.33, 0.67))
          (rest.map (fun y => (c0, y)))).1 := by
    intro pr hpr
    have h2 : pr.2 ∈ rest := (ModelTraining.mem_allPairs hpr).2
    have hmem : (c0, pr.2) ∈ rest.map (fun y => (c0, y)) :=
      List.mem_map_of_mem _ h2
    calc ModelTraining.f1At probs yVal pr.1 pr.2
        = ModelTraining.f1At probs yVal c0 pr.2 :=
          ModelTraining.f1At_tlo_irrelevant probs yVal pr.1 c0 pr.2
      _ ≤ _ := hmax1 (c0, pr.2) hmem
  have hsplit : ModelTraining.tuneFold probs yVal (-1, (0.33, 0.67))
      (ModelTraining.allPairs (ModelTraining.candidatesOf probs)) =
      ModelTraining.tuneFold probs yVal (-1, (0.33, 0.67)) (rest.map (fun y => (c0, y))) := by
    rw [hc]
    show ModelTraining.tuneFold probs yVal (-1, (0.33, 0.67))
        (rest.map (fun y => (c0, y)) ++ ModelTraining.allPairs rest) = _
    unfold ModelTraining.tuneFold
    rw [List.foldl_append]
    exact ModelTraining.tuneFold_no_update probs yVal (ModelTraining.allPairs rest) _ hdom
  have hfst : (ModelTraining.tuneFold probs yVal (-1, (0.33, 0.67))
      (rest.map (fun y => (c0, y)))).2.1 = c0 := by
    obtain ⟨y, -, hy⟩ := List.mem_map.mp hmem1
    rw [← hy]
  have hlt : (ModelTraining.tuneFold probs yVal (-1, (0.33, 0.67))
      (ModelTraining.allPairs (ModelTraining.candidatesOf probs))).2.1 <
      (ModelTraining.tuneFold probs yVal (-1, (0.33, 0.67))
        (ModelTraining.allPairs (ModelTraining.candidatesOf probs))).2.2 := by
    rw [hsplit]
    refine ModelTraining.allPairs_lt (ModelTraining.candidatesOf_sorted_lt probs) ?_
    rw [hc]
    show _ ∈ ModelTraining.allPairs (c0 :: rest)
    unfold ModelTraining.allPairs
    exact List.mem_append_left _ hmem1
  rw [ModelTraining.tuneThresholds_eq_best probs yVal hprobs hlt, hsplit, hfst]
  rfl

/-- C10 witness: with observed probabilities 0 and 1 the search returns
t_lo equal to the smallest observed value. -/
theorem tune_f1_independent_of_tlo_witness :
    (ModelTraining.tuneThresholds [0, 1] [0, 1]).1 =
      (ModelTraining.candidatesOf [0, 1]).headI :=
  tune_f1_independent_of_tlo.2.2 [0, 1] [0, 1] (by decide)

namespace Vectorizer

/-- Embedding of FeatureVectorizer.vectorize_run: the stored feature rows
of a run are collapsed into a dict keyed by feature name and read back in
the order of the given feature-name list, with 0.0 substituted for any
name absent from the dict. -/
def vectorizeRun (featureRows : List (String × ℚ)) (featureNames : List String) : List ℚ :=
  featureNames.map (fun n => (dictGet featureRows n).getD 0)

theorem getD_map (f : String → ℚ) :
    ∀ (l : List String) (i : ℕ), i < l.length → (l.map f).getD i 1 = f (l.getD i "")
  | _ :: _, 0, _ => rfl
  | _ :: rest, i + 1, h => getD_map f rest i (Nat.lt_of_succ_lt_succ h)

theorem assocGet_append {α : Type} (l m : List (String × α)) (key : String) :
    assocGet (l ++ m) key =
      match assocGet l key with
      | some v => some v
      | none => assocGet m key := by
  induction l with
  | nil => rfl
  | cons r rest ih =>
    obtain ⟨k, v⟩ := r
    by_cases h : k = key <;> simp [assocGet, h, ih]

theorem dictGet_not_mem {α : Type} (rows : List (String × α)) (key : String)
    (h : key ∉ rows.map Prod.fst) : dictGet rows key = none := by
  induction rows with
  | nil => rfl
  | cons r rest ih =>
    simp only [List.map_cons, List.mem_cons, not_or] at h
    simp only [dictGet, List.reverse_cons] at *
    rw [assocGet_append, ih h.2]
    simp [assocGet, Ne.symm h.1]

end Vectorizer

/-- C9: vectorization returns the numeric vector in exactly the order of
the given feature-name list, substituting 0.0 at the position of any name
absent from the run's stored features — not the extractor's semantic
default, which for weighted_prior_mean would be 0.5. -/
theorem vectorize_positional_zero_fill :
    (∀ (rows : List (String × ℚ)) (names : List String),
      (Vectorizer.vectorizeRun rows names).length = names.length) ∧
    (∀ (rows : List (String × ℚ)) (names : List String) (i : ℕ), i < names.length →
      (Vectorizer.vectorizeRun rows names).getD i 1 = (dictGet rows (names.getD i "")).getD 0) ∧
    (∀ (rows : List (String × ℚ)) (names : List String) (i : ℕ), i < names.length →
      names.getD i "" ∉ rows.map Prod.fst →
      (Vectorizer.vectorizeRun rows names).getD i 1 = 0) ∧
    Vectorizer.vectorizeRun [] ["weighted_prior_mean"] = [0] ∧
    Scoring.mergedValue [] "weighted_prior_mean" = 0.5 := by
  have hpos : ∀ (rows : List (String × ℚ)) (names : List String) (i : ℕ), i < names.length →
      (Vectorizer.vectorizeRun rows names).getD i 1 = (dictGet rows (names.getD i "")).getD 0 :=
    fun rows names i h => Vectorizer.getD_map (fun n => (dictGet rows n).getD 0) names i h
  refine ⟨fun rows names => by simp [Vectorizer.vectorizeRun], hpos, ?_, rfl, rfl⟩
  intro rows names i hlen habs
  rw [hpos rows names i hlen, Vectorizer.dictGet_not_mem rows _ habs]
  rfl

/-- C9 witness: a run storing only an unrelated feature vectorizes the
missing canonical name to 0.0. -/
theorem vectorize_positional_zero_fill_witness :
    (Vectorizer.vectorizeRun [("total_articles", 3)] ["weighted_prior_mean"]).getD 0 1 = 0 :=
  vectorize_positional_zero_fill.2.2.1 [("total_articles", 3)] ["weighted_prior_mean"] 0
    (by decide) (by decide)

namespace Evaluation

/-- Row of evaluation results used for metric computation, from the
EvalRow dataclass in services/evaluation.py. -/
structure EvalRow where
  runId : String
  datasetName : String
  claimId : String
  label : ℤ
  score : ℚ
  predictedLabel : String

/-- Embedding of _predicted_to_binary: credible maps to 1, everything
else (uncertain and not_credible included) to 0. -/
def predictedToBinary (predictedLabel : String) : ℤ :=
  if predictedLabel = "credible" then 1 else 0

/-- Safe division: num / denom when denom is nonzero, else 0.0. -/
def safeDiv (num denom : ℚ) : ℚ := if denom ≠ 0 then num / denom else 0

/-- Count of (label, prediction) pairs equal to the given values, one
comprehension of the confusion-matrix block of compute_metrics. -/
def countLP (labels preds : List ℤ) (y p : ℤ) : ℕ :=
  ((labels.zip preds).filter (fun t => t.1 == y && t.2 == p)).length

/-- ROC sweep of _compute_auroc: walk the (score, label) pairs sorted by
descending score, emitting a (tpr, fpr) point whenever the score changes,
and return the accumulated point lists with the final tp and fp counts. -/
def aurocWalk (pos neg : ℤ) :
    List (ℚ × ℤ) → Option ℚ → ℤ → ℤ → List ℚ → List ℚ → (List ℚ × List ℚ × ℤ × ℤ)
  | [], _, tp, fp, tprAcc, fprAcc => (tprAcc, fprAcc, tp, fp)
  | (score, lab) :: rest, lastScore, tp, fp, tprAcc, fprAcc =>
    let isNew : Bool := lastScore.isNone || lastScore != some score
    let tprAcc2 := if isNew then tprAcc ++ [(tp : ℚ) / (pos : ℚ)] else tprAcc
    let fprAcc2 := if isNew then fprAcc ++ [(fp : ℚ) / (neg : ℚ)] else fprAcc
    let lastScore2 := if isNew then some score else lastScore
    if lab = 1 then aurocWalk pos neg rest lastScore2 (tp + 1) fp tprAcc2 fprAcc2
    else aurocWalk pos neg rest lastScore2 tp (fp + 1) tprAcc2 fprAcc2

/-- Trapezoidal integration over consecutive (fpr, tpr) points, the final
loop of _compute_auroc. -/
def trapezoidArea : List (ℚ × ℚ) → ℚ
  | [] => 0
  | [_] => 0
  | p :: q :: rest => (q.1 - p.1) * (q.2 + p.2) / 2 + trapezoidArea (q :: rest)

/-- Embedding of _compute_auroc: tie-aware ROC curve integration,
returning none when fewer than two classes are present. -/
def computeAuroc (labels : List ℤ) (scores : List ℚ) : Option ℚ :=
  if labels = [] then none
  else if labels.dedup.length < 2 then none
  else
    let pairs := List.insertionSort (fun a b : ℚ × ℤ => b.1 ≤ a.1) (scores.zip labels)
    let pos : ℤ := labels.sum
    let neg : ℤ := labels.length - pos
    if pos = 0 ∨ neg = 0 then none
    else
      match aurocWalk pos neg pairs none 0 0 [] [] with
      | (tprAcc, fprAcc, tp, fp) =>
        some (trapezoidArea
          ((fprAcc ++ [(fp : ℚ) / (neg : ℚ)]).zip (tprAcc ++ [(tp : ℚ) / (pos : ℚ)])))

/-- One record of the 5-bin calibration report of _calibration_bins. -/
structure CalBin where
  bin : ℕ
  low : ℚ
  high : ℚ
  count : ℕ
  avgPred : ℚ
  avgObs : ℚ

/-- Embedding of _calibration_bins: equal-width bins, half-open except
the last which is closed, with zeroed averages for empty bins. -/
def calibrationBins (scores : List ℚ) (labels : List ℤ) (bins : ℕ) : List CalBin :=
  if bins = 0 then []
  else (List.range bins).map (fun (i : ℕ) =>
    let low : ℚ := (i : ℚ) / (bins : ℚ)
    let high : ℚ := ((i : ℚ) + 1) / (bins : ℚ)
    let flt := (scores.zip labels).filter (fun p =>
      if i = bins - 1 then decide (low ≤ p.1) && decide (p.1 ≤ high)
      else decide (low ≤ p.1) && decide (p.1 < high))
    if flt.length = 0 then { bin := i, low := low, high := high, count := 0, avgPred := 0, avgObs := 0 }
    else { bin := i, low := low, high := high, count := flt.length,
           avgPred := (flt.map (fun p => p.1)).sum / (flt.length : ℚ),
           avgObs := ((flt.map (fun p => p.2)).sum : ℚ) / (flt.length : ℚ) })

/-- Metric bundle returned by compute_metrics. -/
structure Metrics where
  n : ℕ
  accuracy : ℚ
  precision : ℚ
  «recall» : ℚ
  f1 : ℚ
  tp : ℕ
  fp : ℕ
  tn : ℕ
  fn : ℕ
  brier : ℚ
  auroc : Option ℚ
  calibrationBins : List CalBin

/-- Embedding of compute_metrics in services/evaluation.py. -/
def computeMetrics (rows : List EvalRow) : Metrics :=
  let labels := rows.map (fun r => r.label)
  let scores := rows.map (fun r => r.score)
  let preds := rows.map (fun r => predictedToBinary r.predictedLabel)
  let tp := countLP labels preds 1 1
  let tn := countLP labels preds 0 0
  let fp := countLP labels preds 0 1
  let fnc := countLP labels preds 1 0
  let precision := safeDiv (tp : ℚ) ((tp : ℚ) + (fp : ℚ))
  let rcl := safeDiv (tp : ℚ) ((tp : ℚ) + (fnc : ℚ))
  let f1 := safeDiv (2 * precision * rcl) (precision + rcl)
  let accuracy := if labels ≠ [] then safeDiv ((tp : ℚ) + (tn : ℚ)) (labels.length : ℚ) else 0
  let brier := if labels ≠ [] then
      ((scores.zip labels).map (fun p => (p.1 - (p.2 : ℚ)) ^ 2)).sum / (labels.length : ℚ)
    else 0
  { n := labels.length, accuracy := accuracy, precision := precision, «recall» := rcl,
    f1 := f1, tp := tp, fp := fp, tn := tn, fn := fnc, brier := brier,
    auroc := computeAuroc labels scores,
    calibrationBins := calibrationBins scores labels 5 }

/-- Four-row scenario of the spec: true labels 1, 0, 1, 0 with predicted
labels credible, not_credible, uncertain, credible. -/
def scenarioRows : List EvalRow :=
  [{ runId := "r1", datasetName := "d", claimId := "1", label := 1, score := 0.9,
     predictedLabel := "credible" },
   { runId := "r2", datasetName := "d", claimId := "2", label := 0, score := 0.1,
     predictedLabel := "not_credible" },
   { runId := "r3", datasetName := "d", claimId := "3", label := 1, score := 0.4,
     predictedLabel := "uncertain" },
   { runId := "r4", datasetName := "d", claimId := "4", label := 0, score := 0.8,
     predictedLabel := "credible" }]

end Evaluation

/-- C8: compute_metrics maps predicted labels to binary with 1 exactly
for "credible", divides safely (0 when the denominator is 0), and on the
four-row scenario with labels 1, 0, 1, 0 and predictions credible,
not_credible, uncertain, credible yields tp = tn = fp = fn = 1 and
accuracy 0.5. -/
theorem compute_metrics_scenario :
    (∀ s : String, Evaluation.predictedToBinary s = 1 ↔ s = "credible") ∧
    (∀ x : ℚ, Evaluation.safeDiv x 0 = 0) ∧
    (Evaluation.computeMetrics Evaluation.scenarioRows).tp = 1 ∧
    (Evaluation.computeMetrics Evaluation.scenarioRows).tn = 1 ∧
    (Evaluation.computeMetrics Evaluation.scenarioRows).fp = 1 ∧
    (Evaluation.computeMetrics Evaluation.scenarioRows).fn = 1 ∧
    (Evaluation.computeMetrics Evaluation.scenarioRows).accuracy = 0.5 := by
  refine ⟨?_, ?_, by decide, by decide, by decide, by decide, ?_⟩
  · intro s
    unfold Evaluation.predictedToBinary
    split_ifs with h <;> simp [h]
  · intro x
    simp [Evaluation.safeDiv]
  · have h1 : Evaluation.countLP (Evaluation.scenarioRows.map (fun r => r.label))
        (Evaluation.scenarioRows.map (fun r => Evaluation.predictedToBinary r.predictedLabel))
        1 1 = 1 := by decide
    have h2 : Evaluation.countLP (Evaluation.scenarioRows.map (fun r => r.label))
        (Evaluation.scenarioRows.map (fun r => Evaluation.predictedToBinary r.predictedLabel))
        0 0 = 1 := by decide
    simp only [Evaluation.computeMetrics, h1, h2]
    norm_num [Evaluation.safeDiv, Evaluation.scenarioRows]
    decide

namespace FeatureExtraction

/-- Row of the runs table (db/schema.py Run); created_at is a
non-nullable column. -/
structure RunRec where
  runId : String
  createdAt : ℚ
  claimText : String
  queryText : Option String
  status : String

/-- Row of the evidence_items table (db/schema.py EvidenceItem);
retrieved_at, domain and created_at are non-nullable columns.  The ORM
schema under src has no snippet column, although the extraction service,
the ingestion callers and the tests all use one; that one field is
modelled from the spec (EvidenceItem carries URL, domain, title, snippet,
published timestamp, retrieval timestamp). -/
structure EvidenceRec where
  evidenceId : String
  runId : String
  retrievedAt : ℚ
  publishedAt : Option ℚ
  url : String
  domain : String
  title : Option String
  snippet : Option String
  createdAt : ℚ

/-- One stored feature row as constructed by the extractor. -/
structure Feature where
  runId : String
  group : String
  name : String
  value : ℝ

/-- Database state visible to the feature pipeline: runs, evidence
items, source priors (domain, prior_score) and stored feature rows. -/
structure DB where
  runs : List RunRec
  evidence : List EvidenceRec
  priors : List (String × ℚ)
  features : List Feature

/-- Query for a run by id, the query(Run).filter(run_id).first()
pattern. -/
def runOf (db : DB) (rid : String) : Option RunRec :=
  db.runs.find? (fun r => r.runId == rid)

/-- Evidence rows of a run, the filter(EvidenceItem.run_id == run_id)
pattern shared by all the group extractors. -/
def evidenceOf (db : DB) (rid : String) : List EvidenceRec :=
  db.evidence.filter (fun e => e.runId == rid)

/-- Character class of the token regex [A-Za-z0-9]+. -/
def isTokenChar (c : Char) : Bool := c.isAlpha || c.isDigit

/-- Character class of a regex word character (alphanumeric or
underscore), used for the word boundaries of the entity regex. -/
def isWordChar (c : Char) : Bool := isTokenChar c || c == '_'

/-- Maximal runs of characters satisfying a class, the finditer loop of
a character-class-plus regex. -/
def charRuns (p : Char → Bool) : List Char → List Char → List (List Char)
  | [], cur => if cur.isEmpty then [] else [cur.reverse]
  | c :: cs, cur =>
    if p c then charRuns p cs (c :: cur)
    else if cur.isEmpty then charRuns p cs [] else cur.reverse :: charRuns p cs []

/-- Embedding of text_features.tokenize: lowercased maximal alphanumeric
runs. -/
def tokenize (text : String) : List String :=
  (charRuns isTokenChar text.toList []).map (fun t => String.mk (t.map Char.toLower))

/-- Embedding of text_features.jaccard_similarity on token sets,
0.0 when both sets are empty. -/
def jaccard_similarity (aTokens bTokens : List String) : ℚ :=
  let aSet := aTokens.dedup
  let bSet := bTokens.dedup
  if aSet.isEmpty && bSet.isEmpty then 0
  else ((aSet.filter (fun t => bSet.contains t)).length : ℚ) /
    (((aSet ++ bSet.filter (fun t => !aSet.contains t)).length : ℚ))

/-- Embedding of text_features.extract_entities.  A match of the entity
regex (word boundary, uppercase letter, one or more alphanumerics, word
boundary) is exactly a maximal word-character run that contains no
underscore, has length at least two and starts with an uppercase ASCII
letter; the result is the set of matches. -/
def extract_entities (text : String) : List String :=
  (((charRuns isWordChar text.toList []).filter (fun r =>
      decide (2 ≤ r.length) &&
        (match r with
         | c :: _ => c.isUpper
         | [] => false) &&
        !(r.contains '_'))).map (fun r => String.mk r)).dedup

/-- Embedding of text_features.entity_overlap_ratio: share of claim
entities found among the evidence entities, 0.0 for an entity-free
claim. -/
def entity_overlap_ratio (claimEntities evidenceEntities : List String) : ℚ :=
  if claimEntities.isEmpty then 0
  else ((claimEntities.filter (fun e => evidenceEntities.contains e)).length : ℚ) /
    (claimEntities.length : ℚ)

/-- Fixed contradiction keyword set of text_features.py. -/
def CONTRADICTION_KEYWORDS : List String :=
  ["not", "no", "false", "hoax", "debunk", "debunked", "deny", "denies",
   "refute", "refuted", "fake", "misleading"]

/-- Embedding of text_features.contradiction_signal: some keyword occurs
among the lowercase tokens. -/
def contradiction_signal (text : String) : Bool :=
  let tokens := (tokenize text).dedup
  CONTRADICTION_KEYWORDS.any (fun k => tokens.contains k)

/-- Tuneable threshold from feature_extraction.py. -/
def HIGH_RELIABILITY_THRESHOLD : ℚ := 0.8

/-- Recency decay in days from feature_extraction.py. -/
def RECENCY_DECAY_DAYS : ℚ := 1.0

/-- Default prior for unknown domains from feature_extraction.py. -/
def DEFAULT_UNKNOWN_PRIOR : ℚ := 0.5

/-- Embedding of FeatureExtractor._volume_features: evidence count and
distinct-domain count. -/
noncomputable def volumeFeatures (db : DB) (rid : String) : List Feature :=
  let total := (evidenceOf db rid).length
  let uniq := ((evidenceOf db rid).map (fun e => e.domain)).dedup.length
  [{ runId := rid, group := "volume", name := "total_articles", value := (total : ℝ) },
   { runId := rid, group := "volume", name := "unique_domains", value := (uniq : ℝ) }]

/-- Deterministic prior per domain: MAX(prior_score) grouped by domain,
none when the priors table has no row for the domain. -/
def priorMax (priors : List (String × ℚ)) (d : String) : Option ℚ :=
  ((priors.filter (fun p => p.1 == d)).map (fun p => p.2)).max?

/-- Domains of a run's evidence rows, one per evidence item. -/
def evidenceDomains (db : DB) (rid : String) : List String :=
  (evidenceOf db rid).map (fun e => e.domain)

/-- Evidence domains with falsy (blank) domains cleaned out, the
[d for d in evidence_domains if d] comprehension. -/
def filteredDomains (db : DB) (rid : String) : List String :=
  (evidenceDomains db rid).filter (fun d => !d.isEmpty)

/-- Embedding of FeatureExtractor._source_quality_features. -/
noncomputable def sourceQualityFeatures (db : DB) (rid : String) : List Feature :=
  if (evidenceDomains db rid).isEmpty then
    [{ runId := rid, group := "source_quality", name := "weighted_prior_mean",
       value := ((DEFAULT_UNKNOWN_PRIOR : ℚ) : ℝ) },
     { runId := rid, group := "source_quality", name := "high_reliability_ratio", value := 0 },
     { runId := rid, group := "source_quality", name := "unknown_source_ratio", value := 0 }]
  else
    let domains := filteredDomains db rid
    if domains.isEmpty then
      [{ runId := rid, group := "source_quality", name := "weighted_prior_mean",
         value := ((DEFAULT_UNKNOWN_PRIOR : ℚ) : ℝ) },
       { runId := rid, group := "source_quality", name := "high_reliability_ratio", value := 0 },
       { runId := rid, group := "source_quality", name := "unknown_source_ratio", value := 1 }]
    else
      let priorScores := domains.map (fun d => (priorMax db.priors d).getD DEFAULT_UNKNOWN_PRIOR)
      let unknownCount := (domains.filter (fun d => (priorMax db.priors d).isNone)).length
      let weightedPriorMean := priorScores.sum / (priorScores.length : ℚ)
      let uniqueDomains := domains.dedup
      let highCount := (uniqueDomains.filter (fun d =>
        decide (HIGH_RELIABILITY_THRESHOLD ≤ (priorMax db.priors d).getD DEFAULT_UNKNOWN_PRIOR))).length
      let highReliabilityRatio := (highCount : ℚ) / (uniqueDomains.length : ℚ)
      let uniquePriors := uniqueDomains.map (fun d => (priorMax db.priors d).getD DEFAULT_UNKNOWN_PRIOR)
      let sortedPriors := List.insertionSort (· ≤ ·) uniquePriors
      let medianPrior := sortedPriors.getD (sortedPriors.length / 2) 0
      let minPrior := sortedPriors.getD 0 0
      let maxPrior := (sortedPriors.getLast?).getD 0
      let unknownRatio := (unknownCount : ℚ) / (priorScores.length : ℚ)
      [{ runId := rid, group := "source_quality", name := "weighted_prior_mean",
         value := (weightedPriorMean : ℝ) },
       { runId := rid, group := "source_quality", name := "high_reliability_ratio",
         value := (highReliabilityRatio : ℝ) },
       { runId := rid, group := "source_quality", name := "unknown_source_ratio",
         value := (unknownRatio : ℝ) },
       { runId := rid, group := "source_quality", name := "median_prior",
         value := (medianPrior : ℝ) },
       { runId := rid, group := "source_quality", name := "min_prior",
         value := (minPrior : ℝ) },
       { runId := rid, group := "source_quality", name := "max_prior",
         value := (maxPrior : ℝ) }]

/-- Embedding of FeatureExtractor._stable_reference_time: the run's
created_at when the run exists, else the max evidence retrieved_at, else
the max evidence created_at, else the injected wall clock (the
datetime.utcnow() last resort). -/
def stableReferenceTime (wallClock : ℚ) (db : DB) (rid : String) : ℚ :=
  match runOf db rid with
  | some r => r.createdAt
  | none =>
    match ((evidenceOf db rid).map (fun e => e.retrievedAt)).max? with
    | some t => t
    | none =>
      match ((evidenceOf db rid).map (fun e => e.createdAt)).max? with
      | some t => t
      | none => wallClock

/-- Embedding of FeatureExtractor._temporal_features.  Note the feature
order differs between the no-evidence branch and the main branch, as in
the code. -/
noncomputable def temporalFeatures (wallClock : ℚ) (db : DB) (rid : String) : List Feature :=
  let publishedRows := (evidenceOf db rid).map (fun e => e.publishedAt)
  if publishedRows.isEmpty then
    [{ runId := rid, group := "temporal", name := "recency_score",
       value := ((DEFAULT_UNKNOWN_PRIOR : ℚ) : ℝ) },
     { runId := rid, group := "temporal", name := "publication_span_hours", value := 0 },
     { runId := rid, group := "temporal", name := "missing_timestamp_ratio", value := 0 }]
  else
    let totalCount := publishedRows.length
    let validTimes := publishedRows.filterMap id
    let missingCount := totalCount - validTimes.length
    let missingRatio : ℚ := if totalCount ≠ 0 then (missingCount : ℚ) / (totalCount : ℚ) else 0
    let refNow := stableReferenceTime wallClock db rid
    let meanRecency : ℝ :=
      if validTimes.isEmpty then ((DEFAULT_UNKNOWN_PRIOR : ℚ) : ℝ)
      else
        let recencyScores := validTimes.map (fun t =>
          let daysSince : ℝ := (((refNow - t : ℚ)) : ℝ) / 86400
          let d := if daysSince < 0 then 0 else daysSince
          Real.exp (-(d / ((RECENCY_DECAY_DAYS : ℚ) : ℝ))))
        let allScores := recencyScores ++
          List.replicate missingCount ((DEFAULT_UNKNOWN_PRIOR : ℚ) : ℝ)
        allScores.sum / (allScores.length : ℝ)
    let spanHours : ℚ :=
      if 2 ≤ validTimes.length then
        ((validTimes.max?).getD 0 - (validTimes.min?).getD 0) / 3600
      else 0
    [{ runId := rid, group := "temporal", name := "missing_timestamp_ratio",
       value := (missingRatio : ℝ) },
     { runId := rid, group := "temporal", name := "recency_score", value := meanRecency },
     { runId := rid, group := "temporal", name := "publication_span_hours",
       value := (spanHours : ℝ) }]

/-- Embedding of FeatureExtractor._corroboration_features: Shannon
entropy (base 2) of the domain distribution and largest domain share. -/
noncomputable def corroborationFeatures (db : DB) (rid : String) : List Feature :=
  let ds := (evidenceOf db rid).map (fun e => e.domain)
  if ds.isEmpty then
    [{ runId := rid, group := "corroboration", name := "domain_diversity", value := 0 },
     { runId := rid, group := "corroboration", name := "max_domain_concentration", value := 0 }]
  else
    let counts := ds.dedup.map (fun d => ds.count d)
    let total := counts.sum
    if total = 0 then
      [{ runId := rid, group := "corroboration", name := "domain_diversity", value := 0 },
       { runId := rid, group := "corroboration", name := "max_domain_concentration", value := 0 }]
    else
      let entropy : ℝ := -((counts.map (fun c =>
        let p : ℝ := (c : ℝ) / (total : ℝ)
        if 0 < p then p * Real.logb 2 p else 0)).sum)
      let maxConcentration : ℚ := ((counts.max?).getD 0 : ℚ) / (total : ℚ)
      [{ runId := rid, group := "corroboration", name := "domain_diversity", value := entropy },
       { runId := rid, group := "corroboration", name := "max_domain_concentration",
         value := (maxConcentration : ℝ) }]

/-- Text of one evidence item: title and snippet joined by a space with
falsy fields replaced by empty strings, then stripped. -/
def itemText (e : EvidenceRec) : String :=
  ModelTraining.pyStrip ((e.title.getD "") ++ " " ++ (e.snippet.getD ""))

/-- Embedding of FeatureExtractor._text_similarity_features: mean, max
and top-3 mean of per-item Jaccard similarity between the claim tokens
and each item's title-plus-snippet tokens. -/
noncomputable def textSimilarityFeatures (db : DB) (rid : String) : List Feature :=
  let zeros :=
    [{ runId := rid, group := "text_similarity", name := "mean_jaccard",
       value := (0 : ℝ) },
     { runId := rid, group := "text_similarity", name := "max_jaccard", value := 0 },
     { runId := rid, group := "text_similarity", name := "topk_mean_jaccard", value := 0 }]
  match runOf db rid with
  | none => zeros
  | some run =>
    if run.claimText.isEmpty then zeros
    else
      let claimTokens := tokenize run.claimText
      let evidenceRows := evidenceOf db rid
      if evidenceRows.isEmpty then zeros
      else
        let sims := evidenceRows.map (fun e =>
          jaccard_similarity claimTokens (tokenize (itemText e)))
        let simsSorted := List.insertionSort (· ≥ ·) sims
        let meanJaccard := simsSorted.sum / (simsSorted.length : ℚ)
        let maxJaccard := simsSorted.headI
        let topk := simsSorted.take 3
        let topkMean := topk.sum / (topk.length : ℚ)
        [{ runId := rid, group := "text_similarity", name := "mean_jaccard",
           value := (meanJaccard : ℝ) },
         { runId := rid, group := "text_similarity", name := "max_jaccard",
           value := (maxJaccard : ℝ) },
         { runId := rid, group := "text_similarity", name := "topk_mean_jaccard",
           value := (topkMean : ℝ) }]

/-- Embedding of FeatureExtractor._entity_overlap_features: mean and max
per-item entity overlap ratio. -/
noncomputable def entityOverlapFeatures (db : DB) (rid : String) : List Feature :=
  let zeros :=
    [{ runId := rid, group := "entity_overlap", name := "entity_overlap_mean",
       value := (0 : ℝ) },
     { runId := rid, group := "entity_overlap", name := "entity_overlap_max", value := 0 }]
  match runOf db rid with
  | none => zeros
  | some run =>
    if run.claimText.isEmpty then zeros
    else
      let claimEntities := extract_entities run.claimText
      let evidenceRows := evidenceOf db rid
      if evidenceRows.isEmpty then zeros
      else
        let overlaps := evidenceRows.map (fun e =>
          entity_overlap_ratio claimEntities (extract_entities (itemText e)))
        let meanOverlap := overlaps.sum / (overlaps.length : ℚ)
        let maxOverlap := (overlaps.max?).getD 0
        [{ runId := rid, group := "entity_overlap", name := "entity_overlap_mean",
           value := (meanOverlap : ℝ) },
         { runId := rid, group := "entity_overlap", name := "entity_overlap_max",
           value := (maxOverlap : ℝ) }]

/-- Embedding of FeatureExtractor._consistency_features: share of
evidence items whose text contains a contradiction keyword. -/
noncomputable def consistencyFeatures (db : DB) (rid : String) : List Feature :=
  let evidenceRows := evidenceOf db rid
  if evidenceRows.isEmpty then
    [{ runId := rid, group := "consistency", name := "contradiction_signal_ratio",
       value := (0 : ℝ) }]
  else
    let cnt := (evidenceRows.filter (fun e => contradiction_signal (itemText e))).length
    [{ runId := rid, group := "consistency", name := "contradiction_signal_ratio",
       value := (((cnt : ℚ) / (evidenceRows.length : ℚ)) : ℝ) }]

/-- Embedding of FeatureExtractor.extract_for_run: all seven group
extractions concatenated in order. -/
noncomputable def extractForRun (wallClock : ℚ) (db : DB) (rid : String) : List Feature :=
  volumeFeatures db rid ++ sourceQualityFeatures db rid ++
    temporalFeatures wallClock db rid ++ corroborationFeatures db rid ++
    textSimilarityFeatures db rid ++ entityOverlapFeatures db rid ++
    consistencyFeatures db rid

/-- State after FeatureEngineeringService.compute_features on an
existing run: stored features for the run are deleted, then the freshly
extracted rows are inserted. -/
noncomputable def computeResult (wallClock : ℚ) (db : DB) (rid : String) : DB :=
  { db with features :=
      db.features.filter (fun f => !(f.runId == rid)) ++ extractForRun wallClock db rid }

/-- Embedding of FeatureEngineeringService.compute_features: a missing
run raises; otherwise delete-by-run then bulk insert of the extraction
output. -/
noncomputable def computeFeatures (wallClock : ℚ) (db : DB) (rid : String) : Except String DB :=
  if (runOf db rid).isSome then Except.ok (computeResult wallClock db rid)
  else Except.error ("Run " ++ rid ++ " does not exist")

theorem volume_runId (db : DB) (rid : String) :
    ∀ f ∈ volumeFeatures db rid, f.runId = rid := by
  intro f hf
  unfold volumeFeatures at hf
  simp only [List.mem_cons, List.not_mem_nil, or_false] at hf
  rcases hf with rfl | rfl <;> rfl

theorem sourceQuality_runId (db : DB) (rid : String) :
    ∀ f ∈ sourceQualityFeatures db rid, f.runId = rid := by
  intro f hf
  unfold sourceQualityFeatures at hf
  dsimp only at hf
  split_ifs at hf <;>
    simp only [List.mem_cons, List.not_mem_nil, or_false] at hf <;>
    rcases hf with rfl | rfl | rfl | rfl | rfl | rfl <;> rfl

theorem temporal_runId (wc : ℚ) (db : DB) (rid : String) :
    ∀ f ∈ temporalFeatures wc db rid, f.runId = rid := by
  intro f hf
  unfold temporalFeatures at hf
  dsimp only at hf
  split_ifs at hf <;>
    simp only [List.mem_cons, List.not_mem_nil, or_false] at hf <;>
    rcases hf with rfl | rfl | rfl <;> rfl

theorem corroboration_runId (db : DB) (rid : String) :
    ∀ f ∈ corroborationFeatures db rid, f.runId = rid := by
  intro f hf
  unfold corroborationFeatures at hf
  dsimp only at hf
  split_ifs at hf <;>
    simp only [List.mem_cons, List.not_mem_nil, or_false] at hf <;>
    rcases hf with rfl | rfl <;> rfl

theorem textSimilarity_runId (db : DB) (rid : String) :
    ∀ f ∈ textSimilarityFeatures db rid, f.runId = rid := by
  intro f hf
  unfold textSimilarityFeatures at hf
  dsimp only at hf
  rcases hrun : runOf db rid with _ | run <;> rw [hrun] at hf <;> dsimp only at hf
  · simp only [List.mem_cons, List.not_mem_nil, or_false] at hf
    rcases hf with rfl | rfl | rfl <;> rfl
  · split_ifs at hf <;>
      simp only [List.mem_cons, List.not_mem_nil, or_false] at hf <;>
      rcases hf with rfl | rfl | rfl <;> rfl

theorem entityOverlap_runId (db : DB) (rid : String) :
    ∀ f ∈ entityOverlapFeatures db rid, f.runId = rid := by
  intro f hf
  unfold entityOverlapFeatures at hf
  dsimp only at hf
  rcases hrun : runOf db rid with _ | run <;> rw [hrun] at hf <;> dsimp only at hf
  · simp only [List.mem_cons, List.not_mem_nil, or_false] at hf
    rcases hf with rfl | rfl <;> rfl
  · split_ifs at hf <;>
      simp only [List.mem_cons, List.not_mem_nil, or_false] at hf <;>
      rcases hf with rfl | rfl <;> rfl

theorem consistency_runId (db : DB) (rid : String) :
    ∀ f ∈ consistencyFeatures db rid, f.runId = rid := by
  intro f hf
  unfold consistencyFeatures at hf
  dsimp only at hf
  split_ifs at hf <;>
    simp only [List.mem_cons, List.not_mem_nil, or_false] at hf <;>
    rcases hf with rfl <;> rfl

theorem extract_runId (wc : ℚ) (db : DB) (rid : String) :
    ∀ f ∈ extractForRun wc db rid, f.runId = rid := by
  intro f hf
  unfold extractForRun at hf
  simp only [List.mem_append] at hf
  rcases hf with ((((((h | h) | h) | h) | h) | h) | h)
  · exact volume_runId db rid f h
  · exact sourceQuality_runId db rid f h
  · exact temporal_runId wc db rid f h
  · exact corroboration_runId db rid f h
  · exact textSimilarity_runId db rid f h
  · exact entityOverlap_runId db rid f h
  · exact consistency_runId db rid f h

theorem extract_features_agnostic (wc : ℚ) (runs : List RunRec) (ev : List EvidenceRec)
    (pr : List (String × ℚ)) (F F' : List Feature) (rid : String) :
    extractForRun wc ⟨runs, ev, pr, F⟩ rid = extractForRun wc ⟨runs, ev, pr, F'⟩ rid := rfl

theorem stableReferenceTime_run (wc : ℚ) (db : DB) (rid : String) (r : RunRec)
    (h : runOf db rid = some r) : stableReferenceTime wc db rid = r.createdAt := by
  unfold stableReferenceTime
  rw [h]

theorem temporal_wc_congr (wc₁ wc₂ : ℚ) (db : DB) (rid : String)
    (h : stableReferenceTime wc₁ db rid = stableReferenceTime wc₂ db rid) :
    temporalFeatures wc₁ db rid = temporalFeatures wc₂ db rid := by
  unfold temporalFeatures
  rw [h]

theorem extract_wc_congr (wc₁ wc₂ : ℚ) (db : DB) (rid : String)
    (h : stableReferenceTime wc₁ db rid = stableReferenceTime wc₂ db rid) :
    extractForRun wc₁ db rid = extractForRun wc₂ db rid := by
  unfold extractForRun
  rw [temporal_wc_congr wc₁ wc₂ db rid h]

theorem filter_self_idem (p : Feature → Bool) (l : List Feature) :
    (l.filter p).filter p = l.filter p := by
  simp [List.filter_filter]

/-- Example database: one run with one evidence item and one prior. -/
def dbEx : DB :=
  { runs := [{ runId := "r", createdAt := 100, claimText := "NASA Launch",
               queryText := none, status := "completed" }]
    evidence := [{ evidenceId := "e1", runId := "r", retrievedAt := 100,
                   publishedAt := some 90, url := "https://d.com/a", domain := "d.com",
                   title := some "NASA Launch Successful", snippet := some "details",
                   createdAt := 100 }]
    priors := [("d.com", 0.9)]
    features := [] }

/-- Example database: one run and no evidence at all. -/
def dbNoEvidence : DB :=
  { runs := [{ runId := "r", createdAt := 100, claimText := "c",
               queryText := none, status := "completed" }]
    evidence := []
    priors := []
    features := [] }

/-- Example database: one run whose single evidence item has a blank
domain. -/
def dbBlankDomain : DB :=
  { runs := [{ runId := "r", createdAt := 100, claimText := "c",
               queryText := none, status := "completed" }]
    evidence := [{ evidenceId := "e1", runId := "r", retrievedAt := 100,
                   publishedAt := none, url := "u", domain := "",
                   title := none, snippet := none, createdAt := 100 }]
    priors := []
    features := [] }

end FeatureExtraction

/-- C2 counterexample: with zero evidence the source_quality group emits
only the three names weighted_prior_mean, high_reliability_ratio and
unknown_source_ratio, not its full six-name set — median_prior,
min_prior and max_prior are missing. -/
theorem source_quality_not_total :
    (FeatureExtraction.sourceQualityFeatures FeatureExtraction.dbNoEvidence "r").map
        (fun f => f.name) =
      ["weighted_prior_mean", "high_reliability_ratio", "unknown_source_ratio"] ∧
    (FeatureExtraction.sourceQualityFeatures FeatureExtraction.dbNoEvidence "r").map
        (fun f => f.name) ≠
      ["weighted_prior_mean", "high_reliability_ratio", "unknown_source_ratio",
       "median_prior", "min_prior", "max_prior"] := by
  refine ⟨rfl, fun h => absurd (congrArg List.length h) (by decide)⟩

/-- C2 (amended): the source_quality group emits all six names exactly
when some evidence item has a non-blank domain; with zero evidence it
emits only weighted_prior_mean = 0.5, high_reliability_ratio = 0.0 and
unknown_source_ratio = 0.0, and with evidence whose domains are all
blank the same three names with unknown_source_ratio = 1.0.  Every other
feature group always emits its full fixed name set, for any run. -/
theorem extractor_group_names (db : FeatureExtraction.DB) (rid : String) :
    (FeatureExtraction.evidenceDomains db rid = [] →
      FeatureExtraction.sourceQualityFeatures db rid =
        [{ runId := rid, group := "source_quality", name := "weighted_prior_mean",
           value := ((0.5 : ℚ) : ℝ) },
         { runId := rid, group := "source_quality", name := "high_reliability_ratio",
           value := 0 },
         { runId := rid, group := "source_quality", name := "unknown_source_ratio",
           value := 0 }]) ∧
    (FeatureExtraction.evidenceDomains db rid ≠ [] →
      FeatureExtraction.filteredDomains db rid = [] →
      FeatureExtraction.sourceQualityFeatures db rid =
        [{ runId := rid, group := "source_quality", name := "weighted_prior_mean",
           value := ((0.5 : ℚ) : ℝ) },
         { runId := rid, group := "source_quality", name := "high_reliability_ratio",
           value := 0 },
         { runId := rid, group := "source_quality", name := "unknown_source_ratio",
           value := 1 }]) ∧
    (FeatureExtraction.filteredDomains db rid ≠ [] →
      (FeatureExtraction.sourceQualityFeatures db rid).map (fun f => f.name) =
        ["weighted_prior_mean", "high_reliability_ratio", "unknown_source_ratio",
         "median_prior", "min_prior", "max_prior"]) ∧
    ((FeatureExtraction.volumeFeatures db rid).map (fun f => f.name) =
      ["total_articles", "unique_domains"]) ∧
    (∀ (wc : ℚ) (n : String),
      n ∈ (FeatureExtraction.temporalFeatures wc db rid).map (fun f => f.name) ↔
      n ∈ ["recency_score", "publication_span_hours", "missing_timestamp_ratio"]) ∧
    ((FeatureExtraction.corroborationFeatures db rid).map (fun f => f.name) =
      ["domain_diversity", "max_domain_concentration"]) ∧
    ((FeatureExtraction.textSimilarityFeatures db rid).map (fun f => f.name) =
      ["mean_jaccard", "max_jaccard", "topk_mean_jaccard"]) ∧
    ((FeatureExtraction.entityOverlapFeatures db rid).map (fun f => f.name) =
      ["entity_overlap_mean", "entity_overlap_max"]) ∧
    ((FeatureExtraction.consistencyFeatures db rid).map (fun f => f.name) =
      ["contradiction_signal_ratio"]) := by
  refine ⟨?_, ?_, ?_, ?_, ?_, ?_, ?_, ?_, ?_⟩
  · intro h
    simp [FeatureExtraction.sourceQualityFeatures, h, FeatureExtraction.DEFAULT_UNKNOWN_PRIOR]
  · intro h1 h2
    simp [FeatureExtraction.sourceQualityFeatures, List.isEmpty_iff, h1, h2,
      FeatureExtraction.DEFAULT_UNKNOWN_PRIOR]
  · intro h
    have hev : FeatureExtraction.evidenceDomains db rid ≠ [] := by
      intro he
      exact h (by simp [FeatureExtraction.filteredDomains, he])
    simp [FeatureExtraction.sourceQualityFeatures, List.isEmpty_iff, hev, h]
  · rfl
  · intro wc n
    by_cases hp : ((FeatureExtraction.evidenceOf db rid).map
        (fun e => e.publishedAt)).isEmpty <;>
      simp [FeatureExtraction.temporalFeatures, hp] <;> tauto
  · unfold FeatureExtraction.corroborationFeatures
    dsimp only
    split_ifs <;> rfl
  · unfold FeatureExtraction.textSimilarityFeatures
    rcases FeatureExtraction.runOf db rid with _ | run
    · rfl
    · dsimp only
      split_ifs <;> rfl
  · unfold FeatureExtraction.entityOverlapFeatures
    rcases FeatureExtraction.runOf db rid with _ | run
    · rfl
    · dsimp only
      split_ifs <;> rfl
  · unfold FeatureExtraction.consistencyFeatures
    dsimp only
    split_ifs <;> rfl

/-- C2 witness: the three source_quality cases at concrete databases
with no evidence, an all-blank domain, and a normal domain. -/
theorem extractor_group_names_witness :
    FeatureExtraction.sourceQualityFeatures FeatureExtraction.dbNoEvidence "r" =
      [{ runId := "r", group := "source_quality", name := "weighted_prior_mean",
         value := ((0.5 : ℚ) : ℝ) },
       { runId := "r", group := "source_quality", name := "high_reliability_ratio",
         value := 0 },
       { runId := "r", group := "source_quality", name := "unknown_source_ratio",
         value := 0 }] ∧
    FeatureExtraction.sourceQualityFeatures FeatureExtraction.dbBlankDomain "r" =
      [{ runId := "r", group := "source_quality", name := "weighted_prior_mean",
         value := ((0.5 : ℚ) : ℝ) },
       { runId := "r", group := "source_quality", name := "high_reliability_ratio",
         value := 0 },
       { runId := "r", group := "source_quality", name := "unknown_source_ratio",
         value := 1 }] ∧
    (FeatureExtraction.sourceQualityFeatures FeatureExtraction.dbEx "r").map
        (fun f => f.name) =
      ["weighted_prior_mean", "high_reliability_ratio", "unknown_source_ratio",
       "median_prior", "min_prior", "max_prior"] :=
  ⟨(extractor_group_names FeatureExtraction.dbNoEvidence "r").1 (by decide),
   (extractor_group_names FeatureExtraction.dbBlankDomain "r").2.1 (by decide) (by decide),
   (extractor_group_names FeatureExtraction.dbEx "r").2.2.1 (by decide)⟩

/-- C1: feature extraction is idempotent.  Re-running compute_features
(delete-then-reinsert) for an existing run returns exactly the same
stored state bit-for-bit, even under a different wall clock, because the
extraction reads only the run, evidence and prior tables and its recency
reference comes from the run's creation time when the run exists; and
the stable reference time is wall-clock independent whenever the run or
any evidence exists (run created_at first, else max evidence
retrieved_at/created_at, wall clock only as last resort). -/
theorem extract_idempotent :
    (∀ (db : FeatureExtraction.DB) (rid : String) (wc₁ wc₂ : ℚ),
      (FeatureExtraction.runOf db rid).isSome = true →
      FeatureExtraction.computeFeatures wc₂ (FeatureExtraction.computeResult wc₁ db rid) rid =
        Except.ok (FeatureExtraction.computeResult wc₁ db rid)) ∧
    (∀ (db : FeatureExtraction.DB) (rid : String) (wc wc' : ℚ),
      ((FeatureExtraction.runOf db rid).isSome = true ∨
        FeatureExtraction.evidenceOf db rid ≠ []) →
      FeatureExtraction.stableReferenceTime wc db rid =
        FeatureExtraction.stableReferenceTime wc' db rid) := by
  constructor
  · intro db rid wc₁ wc₂ hsome
    obtain ⟨r, hr⟩ := Option.isSome_iff_exists.mp hsome
    obtain ⟨runs, ev, pr, F⟩ := db
    have hr1 : FeatureExtraction.runOf
        (FeatureExtraction.computeResult wc₁ ⟨runs, ev, pr, F⟩ rid) rid = some r := hr
    have hstable : FeatureExtraction.stableReferenceTime wc₂ ⟨runs, ev, pr, F⟩ rid =
        FeatureExtraction.stableReferenceTime wc₁ ⟨runs, ev, pr, F⟩ rid := by
      rw [FeatureExtraction.stableReferenceTime_run wc₂ _ rid r hr,
        FeatureExtraction.stableReferenceTime_run wc₁ _ rid r hr]
    have hext : FeatureExtraction.extractForRun wc₂
        ⟨runs, ev, pr, List.filter (fun f => !(f.runId == rid)) F ++
          FeatureExtraction.extractForRun wc₁ ⟨runs, ev, pr, F⟩ rid⟩ rid =
        FeatureExtraction.extractForRun wc₁ ⟨runs, ev, pr, F⟩ rid := by
      have h1 := FeatureExtraction.extract_features_agnostic wc₂ runs ev pr
        (List.filter (fun f => !(f.runId == rid)) F ++
          FeatureExtraction.extractForRun wc₁ ⟨runs, ev, pr, F⟩ rid) F rid
      rw [h1]
      exact FeatureExtraction.extract_wc_congr wc₂ wc₁ _ rid hstable
    have hfilterE : (FeatureExtraction.extractForRun wc₁ ⟨runs, ev, pr, F⟩ rid).filter
        (fun f => !(f.runId == rid)) = [] := by
      rw [List.filter_eq_nil_iff]
      intro f hf
      simp [FeatureExtraction.extract_runId wc₁ _ rid f hf]
    unfold FeatureExtraction.computeFeatures
    rw [hr1]
    simp only [Option.isSome_some, if_true, Except.ok.injEq]
    show FeatureExtraction.computeResult wc₂
        (FeatureExtraction.computeResult wc₁ ⟨runs, ev, pr, F⟩ rid) rid =
      FeatureExtraction.computeResult wc₁ ⟨runs, ev, pr, F⟩ rid
    unfold FeatureExtraction.computeResult
    simp only [FeatureExtraction.DB.mk.injEq, true_and]
    rw [hext]
    simp only [List.filter_append, FeatureExtraction.filter_self_idem, hfilterE,
      List.append_nil]
  · intro db rid wc wc' h
    rcases h with hsome | hev
    · obtain ⟨r, hr⟩ := Option.isSome_iff_exists.mp hsome
      rw [FeatureExtraction.stableReferenceTime_run wc db rid r hr,
        FeatureExtraction.stableReferenceTime_run wc' db rid r hr]
    · unfold FeatureExtraction.stableReferenceTime
      rcases hrun : FeatureExtraction.runOf db rid with _ | r
      · rcases hmax : ((FeatureExtraction.evidenceOf db rid).map
            (fun e => e.retrievedAt)).max? with _ | t
        · exfalso
          have hnil := List.max?_eq_none_iff.mp hmax
          simp only [List.map_eq_nil_iff] at hnil
          exact hev hnil
        · rw [hmax]
      · rfl

/-- C1 witness: re-running extraction on the example database under a
different wall clock reproduces the stored state, and the stable
reference time there ignores the wall clock. -/
theorem extract_idempotent_witness :
    FeatureExtraction.computeFeatures 7
        (FeatureExtraction.computeResult 3 FeatureExtraction.dbEx "r") "r" =
      Except.ok (FeatureExtraction.computeResult 3 FeatureExtraction.dbEx "r") ∧
    FeatureExtraction.stableReferenceTime 3 FeatureExtraction.dbEx "r" =
      FeatureExtraction.stableReferenceTime 99 FeatureExtraction.dbEx "r" :=
  ⟨extract_idempotent.1 FeatureExtraction.dbEx "r" 3 7 (by decide),
    extract_idempotent.2 FeatureExtraction.dbEx "r" 3 99 (Or.inl (by decide))⟩

end Trustlens
